import Mathlib

/-!
Verification of the caching + orchestration core of the `world_sk8_parks` service:
the TTL cache (`src/app/core/cache.py`), the geocoding client
(`src/app/services/geocoding_service.py`), the Overpass query client
(`src/app/services/overpass_service.py`) and the aggregation orchestrator
(`src/app/services/skatepark_service.py`), shallowly embedded in Lean.

Modelling conventions:
* Python floats are modelled as exact rationals (`ℚ`); `time.time()` values are
  rationals threaded explicitly as a `now` argument.
* A Python `dict` used as a store is an association list with at most one
  binding per key (assignment erases the previous binding before inserting).
* SHA-256 over the canonical JSON serialization of a cache-key payload is
  modelled as an injective encoding: the key simply carries the canonical
  payload itself, prefixed exactly as in the source ("geocode:", "reverse:",
  "overpass:" become distinct key types / string prefixes).  All claims about
  key equality are settled at the digest-input level, which is what the code's
  guarantee is (equality of digests up to SHA-256 collision resistance).
* `str.lower()` is modelled by lowercasing ASCII letters; `str.strip()` by
  dropping leading and trailing whitespace characters (structurally, over the
  underlying character list, so that concrete instances evaluate).
-/

set_option linter.unusedVariables false

deriving instance DecidableEq for Except

namespace WorldSk8

/-! ## Python string and number helpers -/

/-- Python `s.strip()`: remove leading and trailing whitespace. -/
def pyStrip (s : String) : String :=
  ⟨((s.data.dropWhile Char.isWhitespace).reverse.dropWhile Char.isWhitespace).reverse⟩

/-- Python `str.lower()` on one character (ASCII letters). -/
def pyLowerChar (c : Char) : Char :=
  if 'A' ≤ c ∧ c ≤ 'Z' then Char.ofNat (c.toNat + 32) else c

/-- Python `s.lower()` (ASCII letters). -/
def pyLower (s : String) : String := ⟨s.data.map pyLowerChar⟩

/-- Python truthiness of an optional string: `None` and `""` are falsy. -/
def pyTruthyStr : Option String → Bool
  | none => false
  | some s => s != ""

/-- Python `a or b` on optional strings: `a` if truthy, else `b`. -/
def pyOrStr (a b : Option String) : Option String :=
  if pyTruthyStr a then a else b

/-- Python `round(q)` to an integer on the exact-rational model of floats:
round half to even. -/
def pyRoundInt (q : ℚ) : ℤ :=
  let f := ⌊q⌋
  if q - f < 1/2 then f
  else if q - f > 1/2 then f + 1
  else if f % 2 = 0 then f else f + 1

/-- Python `round(q, places)`. -/
def pyRound (places : ℕ) (q : ℚ) : ℚ :=
  (pyRoundInt (q * 10 ^ places) : ℚ) / 10 ^ places

/-! ## TTL cache (`src/app/core/cache.py`) -/

/-- `TTLCache`: in-memory store mapping each key to `(value, expires_at)`. -/
structure TTLCache (K V : Type) where
  store : List (K × V × ℚ)
deriving DecidableEq

def TTLCache.empty {K V : Type} : TTLCache K V := ⟨[]⟩

/-- `self._store.get(key)`.  (A present entry is a 2-tuple, hence always truthy,
so Python's `if not item` is exactly a presence test.) -/
def TTLCache.lookup {K V : Type} [DecidableEq K] (c : TTLCache K V) (k : K) :
    Option (V × ℚ) :=
  (c.store.find? fun e => decide (e.1 = k)).map (·.2)

/-- `TTLCache.get(key)`: return the stored value if present and unexpired;
an expired entry is popped (lazy eviction) and `None` is returned.  The
(possibly updated) store is threaded explicitly. -/
def TTLCache.get {K V : Type} [DecidableEq K] (c : TTLCache K V) (k : K) (now : ℚ) :
    Option V × TTLCache K V :=
  match c.lookup k with
  | none => (none, c)
  | some (v, expiresAt) =>
    if now > expiresAt then
      (none, ⟨c.store.filter fun e => !decide (e.1 = k)⟩)
    else
      (some v, c)

/-- `TTLCache.set(key, value, ttl_seconds)`: store with
`expires_at = now + ttl_seconds`, overwriting any prior entry. -/
def TTLCache.set {K V : Type} [DecidableEq K] (c : TTLCache K V) (k : K) (v : V)
    (ttl : ℤ) (now : ℚ) : TTLCache K V :=
  ⟨(k, v, (now + ttl : ℚ)) :: c.store.filter fun e => !decide (e.1 = k)⟩

/-! ## Configured TTLs (`src/app/core/config.py`) -/

def GEOCODE_CACHE_TTL_SECONDS : ℤ := 60 * 60 * 24 * 30

def OVERPASS_CACHE_TTL_SECONDS : ℤ := 60 * 30

/-! ## Geocoding client (`src/app/services/geocoding_service.py`) -/

/-- `GeocodingService._cache_key`: `"geocode:" + sha256(json.dumps({"city":
city.lower().strip()}, sort_keys=True))`.  The SHA-256 of the single-field JSON
payload is injective in the canonical city string (up to collision resistance),
so the key is modelled as the prefix plus that canonical string. -/
def geocodeCacheKey (city : String) : String :=
  "geocode:" ++ pyStrip (pyLower city)

/-- The two `ValueError`s `geocode_city` can raise, distinguished (as in the
source) by their message: the spec calls them `InvalidInput` and `NotFound`. -/
inductive GeoError
  | invalidInput
  | notFound (city : String)
deriving DecidableEq, Repr

/-- `(float(location.latitude), float(location.longitude),
str(location.address))`. -/
structure GeocodeResult where
  lat : ℚ
  lon : ℚ
  address : String
deriving DecidableEq, Repr

structure GeocodeOutcome where
  result : Except GeoError GeocodeResult
  cache : TTLCache String GeocodeResult
  providerCalled : Bool
deriving DecidableEq

/-- `GeocodingService.geocode_city`.  The external Nominatim call is a
parameter `provider`: what `geolocator.geocode(city, addressdetails=True)`
would return at this moment; `providerCalled` records whether that call was
reached.  (A cached 3-tuple is always truthy, so `if cached:` is a presence
test.) -/
def geocodeCity (cache : TTLCache String GeocodeResult) (now : ℚ)
    (provider : Option GeocodeResult) (city : String) : GeocodeOutcome :=
  if pyStrip city = "" then
    { result := .error .invalidInput, cache := cache, providerCalled := false }
  else
    match cache.get (geocodeCacheKey (pyStrip city)) now with
    | (some v, c) => { result := .ok v, cache := c, providerCalled := false }
    | (none, c) =>
      match provider with
      | none =>
        { result := .error (.notFound (pyStrip city)), cache := c,
          providerCalled := true }
      | some loc =>
        { result := .ok loc,
          cache := c.set (geocodeCacheKey (pyStrip city)) loc
            GEOCODE_CACHE_TTL_SECONDS now,
          providerCalled := true }

/-- `GeocodingService._reverse_cache_key`: `"reverse:" + sha256(json.dumps(
{"lat": round(lat, 5), "lon": round(lon, 5)}, sort_keys=True))`, modelled as
the injective pair of rounded coordinates (the "reverse:" prefix becomes the
distinct key type `ℚ × ℚ`). -/
def reverseCacheKey (lat lon : ℚ) : ℚ × ℚ :=
  (pyRound 5 lat, pyRound 5 lon)

structure ReverseOutcome where
  address : Option String
  fromCache : Bool
  cache : TTLCache (ℚ × ℚ) String
deriving DecidableEq

/-- `GeocodingService.reverse_geocode`.  `provider` is what
`geolocator.reverse(f"\x7blat\x7d, \x7blon\x7d")` would return at this moment.
The source's hit test is `if cached is not None`, an exact presence test. -/
def reverseGeocode (cache : TTLCache (ℚ × ℚ) String) (now : ℚ)
    (provider : Option String) (lat lon : ℚ) : ReverseOutcome :=
  match cache.get (reverseCacheKey lat lon) now with
  | (some v, c) => { address := some v, fromCache := true, cache := c }
  | (none, c) =>
    match provider with
    | none => { address := none, fromCache := false, cache := c }
    | some addr =>
      { address := some addr, fromCache := false,
        cache := c.set (reverseCacheKey lat lon) addr
          GEOCODE_CACHE_TTL_SECONDS now }

/-! ## Overpass query client (`src/app/services/overpass_service.py`) -/

/-- A raw OSM element as consumed by the merge loop and
`osm_elements_to_geojson`: `type` and `id` are required (the normalizer indexes
`el["type"]`/`el["id"]` unconditionally), coordinates and the `center`
sub-fields are optional, `tags` defaults to an empty mapping with unique
keys. -/
structure OSMElement where
  type : String
  id : ℤ
  tags : List (String × String)
  lat : Option ℚ
  lon : Option ℚ
  centerLat : Option ℚ
  centerLon : Option ℚ
deriving DecidableEq, Repr

/-- The parsed Overpass response body, restricted to the fields the client
inspects: the in-band `remark` and `error` strings and the element list. -/
structure OverpassData where
  remark : Option String
  error : Option String
  elements : List OSMElement
deriving DecidableEq, Repr

/-- The `cache_payload` dict built by the orchestrator for
`OverpassService._cache_key`; as with the other keys, `"overpass:" +
sha256(json.dumps(payload, sort_keys=True))` is modelled as the injective
payload itself. -/
structure OverpassPayload where
  city : String
  lat : ℚ
  lon : ℚ
  radius_m : ℤ
  tag : String
deriving DecidableEq, Repr

/-- The `RuntimeError` raised by `OverpassService.query` on an in-band provider
failure (the spec's `UpstreamError`), one constructor per raise site. -/
inductive UpstreamError
  | remark (s : String)
  | errorField (s : String)
deriving DecidableEq, Repr

structure QueryOutcome where
  result : Except UpstreamError OverpassData
  cache : TTLCache OverpassPayload OverpassData
  calledProvider : Bool
deriving DecidableEq

/-- `OverpassService.query`: check the cache by canonical key; on a miss issue
the external call — `response` is the parsed body the transport delivers
(transport success assumed: `raise_for_status` aborts earlier otherwise).  A
truthy `remark` or `error` field raises before anything is cached.  (A real
Overpass response dict is non-empty, hence truthy, so `if cached:` is a
presence test.) -/
def overpassQuery (cache : TTLCache OverpassPayload OverpassData) (now : ℚ)
    (response : OverpassData) (payload : OverpassPayload) : QueryOutcome :=
  match cache.get payload now with
  | (some d, c) => { result := .ok d, cache := c, calledProvider := false }
  | (none, c) =>
    if pyTruthyStr response.remark then
      { result := .error (.remark (response.remark.getD "")), cache := c,
        calledProvider := true }
    else if pyTruthyStr response.error then
      { result := .error (.errorField (response.error.getD "")), cache := c,
        calledProvider := true }
    else
      { result := .ok response,
        cache := c.set payload response OVERPASS_CACHE_TTL_SECONDS now,
        calledProvider := true }

/-- A GeoJSON feature as built by `osm_elements_to_geojson`, restricted to the
fields later stages read: `properties.name`, `properties.osm_type`,
`properties.osm_id`, `properties.tags` and `geometry.coordinates = [lon,
lat]`. -/
structure Feature where
  name : Option String
  osm_type : String
  osm_id : ℤ
  tags : List (String × String)
  lon : ℚ
  lat : ℚ
deriving DecidableEq, Repr

/-- `tags.get(k)` on the tag mapping. -/
def tagsGet (tags : List (String × String)) (k : String) : Option String :=
  (tags.find? fun p => decide (p.1 = k)).map (·.2)

/-- The per-element body of `osm_elements_to_geojson`'s loop: a `node`
contributes its direct `lat`/`lon`; any other kind contributes the `lat`/`lon`
of its `center` field (`el.get("center") or \x7b\x7d`); an element lacking
either coordinate is skipped. -/
def elementToFeature (el : OSMElement) : Option Feature :=
  match (if el.type = "node" then el.lat else el.centerLat),
        (if el.type = "node" then el.lon else el.centerLon) with
  | some lat, some lon =>
    some ⟨tagsGet el.tags "name", el.type, el.id, el.tags, lon, lat⟩
  | _, _ => none

/-- `OverpassService.osm_elements_to_geojson`, as the list of features of the
returned FeatureCollection. -/
def osmElementsToGeoJSON (els : List OSMElement) : List Feature :=
  els.filterMap elementToFeature

/-! ## Orchestrator (`src/app/services/skatepark_service.py`) -/

/-- The dedup key of the merge loop: `(el.get("type"), el.get("id"))` (both
fields are required in the model, see `OSMElement`). -/
def dedupKey (el : OSMElement) : String × ℤ := (el.type, el.id)

/-- The `seen`-set loop of `find_by_city_and_radius` that merges the elements
of the three query results, keeping the first occurrence of each
(type, id). -/
def mergeLoop (seen : List (String × ℤ)) : List OSMElement → List OSMElement
  | [] => []
  | el :: rest =>
    if dedupKey el ∈ seen then mergeLoop seen rest
    else el :: mergeLoop (dedupKey el :: seen) rest

/-- Merging the three result sets: iterate over the results in order, then over
each result's `elements`, deduplicating by `dedupKey`. -/
def mergeElements (results : List (List OSMElement)) : List OSMElement :=
  mergeLoop [] results.flatten

/-- `_build_display_address`, the local `full`:
`tags.get("addr:full") or tags.get("address")`. -/
def addrFull (tags : List (String × String)) : Option String :=
  pyOrStr (tagsGet tags "addr:full") (tagsGet tags "address")

/-- `_build_display_address`, the local `street`:
`tags.get("addr:street", "").strip()`. -/
def addrStreet (tags : List (String × String)) : String :=
  pyStrip ((tagsGet tags "addr:street").getD "")

/-- `_build_display_address`, the local `housenumber`. -/
def addrHousenumber (tags : List (String × String)) : String :=
  pyStrip ((tagsGet tags "addr:housenumber").getD "")

/-- `_build_display_address`, the local `unit`. -/
def addrUnit (tags : List (String × String)) : String :=
  pyStrip ((tagsGet tags "addr:unit").getD "")

/-- `_build_display_address`, the local `city`: the truthiness `or`-chain over
`addr:city`, `addr:town`, `addr:village`, `addr:municipality`, stripped. -/
def addrCity (tags : List (String × String)) : String :=
  pyStrip ((pyOrStr (pyOrStr (pyOrStr (tagsGet tags "addr:city")
    (tagsGet tags "addr:town")) (tagsGet tags "addr:village"))
    (tagsGet tags "addr:municipality")).getD "")

/-- `_build_display_address`, the local `postcode`. -/
def addrPostcode (tags : List (String × String)) : String :=
  pyStrip ((tagsGet tags "addr:postcode").getD "")

/-- `_build_display_address`, the local `country`. -/
def addrCountry (tags : List (String × String)) : String :=
  pyStrip ((tagsGet tags "addr:country").getD "")

/-- `_build_display_address`, the street/housenumber/unit line appended first
to `parts` (empty when neither street nor housenumber is present). -/
def addrFirstPart (tags : List (String × String)) : List String :=
  if addrStreet tags ≠ "" then
    [addrStreet tags
      ++ (if addrHousenumber tags ≠ "" then " " ++ addrHousenumber tags else "")
      ++ (if addrUnit tags ≠ "" then ", " ++ addrUnit tags else "")]
  else if addrHousenumber tags ≠ "" then [addrHousenumber tags] else []

/-- `_build_display_address`, the local `parts` after all appends. -/
def addrParts (tags : List (String × String)) : List String :=
  addrFirstPart tags
    ++ (if addrCity tags ≠ "" then [addrCity tags] else [])
    ++ (if addrPostcode tags ≠ "" then [addrPostcode tags] else [])
    ++ (if addrCountry tags ≠ "" then [addrCountry tags] else [])

/-- `_build_display_address`: build a readable address from the OSM `addr:*`
tags, `None` when no usable tag is present. -/
def buildDisplayAddress (tags : List (String × String)) : Option String :=
  if tags = [] then none
  else if pyTruthyStr (addrFull tags) && (pyStrip ((addrFull tags).getD "") != "") then
    some (pyStrip ((addrFull tags).getD ""))
  else if addrParts tags = [] then none
  else some (String.intercalate ", " (addrParts tags))

/-- One entry of the `skateparks` list returned by
`find_by_city_and_radius`. -/
structure ParkRecord where
  name : String
  lat : ℚ
  lon : ℚ
  address : Option String
deriving DecidableEq, Repr

/-- The per-feature body of the name-filter/record-building loop of
`find_by_city_and_radius`: `(props.get("name") or "").strip()` must be
non-empty, coordinates are rounded to 6 places (`coords = [lon, lat]`), and the
tag-derived display address is attached. -/
def featureToRecord (f : Feature) : Option ParkRecord :=
  let name := pyStrip ((pyOrStr f.name (some "")).getD "")
  if name = "" then none
  else
    some { name := name, lat := pyRound 6 f.lat, lon := pyRound 6 f.lon,
           address := buildDisplayAddress f.tags }

/-- The name-filter/record-building loop over the GeoJSON features. -/
def buildSkateparks (features : List Feature) : List ParkRecord :=
  features.filterMap featureToRecord

/-- The pure aggregation pipeline of `find_by_city_and_radius` from the three
query results to the (pre-enrichment) record list: merge & dedup, normalize to
GeoJSON, filter unnamed, round and attach tag addresses. -/
def aggregateRecords (results : List (List OSMElement)) : List ParkRecord :=
  buildSkateparks (osmElementsToGeoJSON (mergeElements results))

/-- State threaded through the `resolve_address` enrichment loop: the shared
cache, the clock, the accumulated `asyncio.sleep` time, the number of
reverse-geocode calls issued, and how many of those were cache misses. -/
structure EnrichState where
  cache : TTLCache (ℚ × ℚ) String
  now : ℚ
  sleepTotal : ℚ
  lookups : ℕ
  missCount : ℕ

/-- One iteration of the enrichment loop: a record that already has an address
is skipped (no reverse-geocode call at all); otherwise `reverse_geocode` runs,
`if addr:` fills the address, and a lookup that was not served from the cache
is followed by `asyncio.sleep(1.1)`, advancing the clock and the accumulated
sleep time. -/
def enrichStep (provider : ℚ → ℚ → Option String) (st : EnrichState)
    (item : ParkRecord) : ParkRecord × EnrichState :=
  if item.address.isSome then (item, st)
  else
    let out := reverseGeocode st.cache st.now (provider item.lat item.lon)
      item.lat item.lon
    let item :=
      if pyTruthyStr out.address then { item with address := out.address }
      else item
    if out.fromCache then
      (item, { st with cache := out.cache, lookups := st.lookups + 1 })
    else
      (item, { cache := out.cache, now := st.now + 11/10,
               sleepTotal := st.sleepTotal + 11/10,
               lookups := st.lookups + 1, missCount := st.missCount + 1 })

/-- The enrichment loop of `find_by_city_and_radius`: strictly sequential and
in record order (a left-to-right fold — the next lookup starts only after the
previous one, and its possible pause, finished). -/
def enrichRecords (provider : ℚ → ℚ → Option String) (st : EnrichState) :
    List ParkRecord → List ParkRecord × EnrichState
  | [] => ([], st)
  | r :: rs =>
    let p := enrichStep provider st r
    let q := enrichRecords provider p.2 rs
    (p.1 :: q.1, q.2)

/-! ## Helper lemmas -/

theorem pyRoundInt_intCast (n : ℤ) : pyRoundInt (n : ℚ) = n := by
  unfold pyRoundInt
  rw [Int.floor_intCast]
  norm_num

theorem pyRound_idem (p : ℕ) (q : ℚ) : pyRound p (pyRound p q) = pyRound p q := by
  unfold pyRound
  have hpow : ((10 : ℚ) ^ p) ≠ 0 := by positivity
  rw [div_mul_cancel₀ _ hpow, pyRoundInt_intCast]

theorem TTLCache.find_erased {K V : Type} [DecidableEq K] (k : K)
    (l : List (K × V × ℚ)) :
    (l.filter fun e => !decide (e.1 = k)).find? (fun e => decide (e.1 = k)) = none := by
  rw [List.find?_eq_none]
  intro x hx
  have hpx := List.of_mem_filter hx
  simpa using hpx

theorem TTLCache.lookup_set_self {K V : Type} [DecidableEq K]
    (c : TTLCache K V) (k : K) (v : V) (ttl : ℤ) (now : ℚ) :
    (c.set k v ttl now).lookup k = some (v, (now + ttl : ℚ)) := by
  simp [TTLCache.set, TTLCache.lookup, List.find?]

theorem TTLCache.lookup_erased {K V : Type} [DecidableEq K]
    (l : List (K × V × ℚ)) (k : K) :
    (TTLCache.lookup (⟨l.filter fun e => !decide (e.1 = k)⟩ : TTLCache K V) k) = none := by
  simp [TTLCache.lookup, TTLCache.find_erased]

theorem TTLCache.get_of_lookup_none {K V : Type} [DecidableEq K]
    {c : TTLCache K V} {k : K} (now : ℚ) (h : c.lookup k = none) :
    c.get k now = (none, c) := by
  unfold TTLCache.get
  rw [h]

theorem TTLCache.get_of_lookup_fresh {K V : Type} [DecidableEq K]
    {c : TTLCache K V} {k : K} {v : V} {e : ℚ} (now : ℚ)
    (h : c.lookup k = some (v, e)) (hfresh : ¬ now > e) :
    c.get k now = (some v, c) := by
  unfold TTLCache.get
  rw [h]
  simp [hfresh]

theorem TTLCache.get_of_lookup_expired {K V : Type} [DecidableEq K]
    {c : TTLCache K V} {k : K} {v : V} {e : ℚ} (now : ℚ)
    (h : c.lookup k = some (v, e)) (hexp : now > e) :
    c.get k now = (none, ⟨c.store.filter fun x => !decide (x.1 = k)⟩) := by
  unfold TTLCache.get
  rw [h]
  simp [hexp]

/-- After a `get` that returned no value, the threaded store holds no entry for
the key (it was either absent or just evicted). -/
theorem TTLCache.get_none_lookup {K V : Type} [DecidableEq K]
    {c : TTLCache K V} {k : K} {now : ℚ} (h : (c.get k now).1 = none) :
    ((c.get k now).2).lookup k = none := by
  rcases hl : c.lookup k with _ | ⟨v, e⟩
  · rw [TTLCache.get_of_lookup_none now hl]
    exact hl
  · by_cases hexp : now > e
    · rw [TTLCache.get_of_lookup_expired now hl hexp]
      exact TTLCache.lookup_erased _ _
    · rw [TTLCache.get_of_lookup_fresh now hl hexp] at h
      cases h

/-! ## Claim theorems -/

/-- Claim C2, counterexample: with `ttl = 5` set at time 0, a `get` at time 5
(exactly `ttl` elapsed, hence "ttl time units or more") still returns the
value, because the expiry test in `TTLCache.get` is the strict
`time.time() > expires_at`. -/
theorem claim_C2_counterexample :
    (((TTLCache.empty : TTLCache String ℤ).set "k" 42 5 0).get "k" 5).1 = some 42 := by
  have hlook := TTLCache.lookup_set_self (TTLCache.empty : TTLCache String ℤ) "k" 42 5 0
  rw [TTLCache.get_of_lookup_fresh 5 hlook (by push_cast; norm_num)]

/-- Claim C2, amended: `get(key)` immediately after `set(key, value, ttl)` with
`ttl > 0` returns `value`; once STRICTLY MORE than `ttl` time units have
elapsed since the set, `get(key)` returns empty and removes the entry, so a
second subsequent `get(key)` (at any time) also returns empty. -/
theorem claim_C2_amended (c : TTLCache String ℤ) (k : String) (v ttl : ℤ)
    (t tExp tLater : ℚ) (httl : 0 < ttl) :
    (((c.set k v ttl t).get k t).1 = some v)
    ∧ ((t + ttl : ℚ) < tExp →
        (((c.set k v ttl t).get k tExp).1 = none
         ∧ ((((c.set k v ttl t).get k tExp).2).get k tLater).1 = none)) := by
  have httlQ : (0 : ℚ) < (ttl : ℤ) := by exact_mod_cast httl
  have hlook := TTLCache.lookup_set_self c k v ttl t
  constructor
  · have hfresh : ¬ t > t + (ttl : ℚ) := by linarith
    rw [TTLCache.get_of_lookup_fresh t hlook hfresh]
  · intro hexp
    have hgt : tExp > t + (ttl : ℚ) := hexp
    rw [TTLCache.get_of_lookup_expired tExp hlook hgt]
    refine ⟨rfl, ?_⟩
    have herased := TTLCache.lookup_erased (V := ℤ) ((c.set k v ttl t).store) k
    rw [TTLCache.get_of_lookup_none tLater herased]

/-- Claim C2 witness: concrete run of the amended statement at
`ttl = 5`, set at `t = 0`, expired get at `tExp = 6`, second get at `7`. -/
theorem claim_C2_amended_witness :
    ((((TTLCache.empty : TTLCache String ℤ).set "k" 7 5 0).get "k" 0).1 = some 7)
    ∧ ((((TTLCache.empty : TTLCache String ℤ).set "k" 7 5 0).get "k" 6).1 = none
       ∧ (((((TTLCache.empty : TTLCache String ℤ).set "k" 7 5 0).get "k" 6).2).get "k" 7).1 = none) := by
  have h := claim_C2_amended (TTLCache.empty : TTLCache String ℤ) "k" 7 5 0 6 7
    (by norm_num)
  exact ⟨h.1, h.2 (by norm_num)⟩

/-- An `overpassQuery` that starts from a store with no entry for the key
always reaches the external call. -/
theorem overpassQuery_miss_calls (cache : TTLCache OverpassPayload OverpassData)
    (now : ℚ) (response : OverpassData) (payload : OverpassPayload)
    (h : cache.lookup payload = none) :
    (overpassQuery cache now response payload).calledProvider = true := by
  unfold overpassQuery
  rw [TTLCache.get_of_lookup_none now h]
  by_cases h1 : pyTruthyStr response.remark <;>
    by_cases h2 : pyTruthyStr response.error <;>
      simp [h1, h2]

/-- Claim C1: when the canonical key is not cached and the transport-successful
body has a non-empty (truthy) `remark` or `error` field, `OverpassService.query`
raises (`UpstreamError`), the store is left with no entry for that key, and a
subsequent call with the same canonical parameters reaches the external call
again. -/
theorem claim_C1 (cache : TTLCache OverpassPayload OverpassData)
    (now now2 : ℚ) (response response2 : OverpassData) (payload : OverpassPayload)
    (hmiss : (cache.get payload now).1 = none)
    (herr : pyTruthyStr response.remark = true ∨ pyTruthyStr response.error = true) :
    (∃ e, (overpassQuery cache now response payload).result = .error e)
    ∧ (overpassQuery cache now response payload).cache.lookup payload = none
    ∧ (overpassQuery (overpassQuery cache now response payload).cache
        now2 response2 payload).calledProvider = true := by
  have hpair : cache.get payload now = (none, (cache.get payload now).2) := by
    have : cache.get payload now = ((cache.get payload now).1, (cache.get payload now).2) := rfl
    rw [hmiss] at this
    exact this
  have hnone := TTLCache.get_none_lookup hmiss
  have hred : overpassQuery cache now response payload =
      (if pyTruthyStr response.remark then
        { result := .error (.remark (response.remark.getD "")),
          cache := (cache.get payload now).2, calledProvider := true }
      else if pyTruthyStr response.error then
        { result := .error (.errorField (response.error.getD "")),
          cache := (cache.get payload now).2, calledProvider := true }
      else
        { result := .ok response,
          cache := ((cache.get payload now).2).set payload response
            OVERPASS_CACHE_TTL_SECONDS now,
          calledProvider := true }) := by
    unfold overpassQuery
    rw [hpair]
  rcases herr with h1 | h2
  · rw [hred]
    simp only [h1, if_true]
    exact ⟨⟨_, rfl⟩, hnone, overpassQuery_miss_calls _ now2 response2 payload hnone⟩
  · by_cases h1 : pyTruthyStr response.remark
    · rw [hred]
      simp only [h1, if_true]
      exact ⟨⟨_, rfl⟩, hnone, overpassQuery_miss_calls _ now2 response2 payload hnone⟩
    · rw [hred]
      simp only [h1, h2, if_true, if_false]
      exact ⟨⟨_, rfl⟩, hnone, overpassQuery_miss_calls _ now2 response2 payload hnone⟩

/-- Claim C1 witness: fresh store, a body carrying
`remark = "runtime error: query timed out"`, concrete payload. -/
theorem claim_C1_witness :
    (∃ e, (overpassQuery (TTLCache.empty : TTLCache OverpassPayload OverpassData) 0
        ⟨some "runtime error: query timed out", none, []⟩
        ⟨"lisbon", 38, -9, 50000, "leisure=pitch;sport=skateboard"⟩).result = .error e)
    ∧ (overpassQuery (TTLCache.empty : TTLCache OverpassPayload OverpassData) 0
        ⟨some "runtime error: query timed out", none, []⟩
        ⟨"lisbon", 38, -9, 50000, "leisure=pitch;sport=skateboard"⟩).cache.lookup
        ⟨"lisbon", 38, -9, 50000, "leisure=pitch;sport=skateboard"⟩ = none
    ∧ (overpassQuery (overpassQuery (TTLCache.empty : TTLCache OverpassPayload OverpassData) 0
        ⟨some "runtime error: query timed out", none, []⟩
        ⟨"lisbon", 38, -9, 50000, "leisure=pitch;sport=skateboard"⟩).cache
        1 ⟨none, none, []⟩
        ⟨"lisbon", 38, -9, 50000, "leisure=pitch;sport=skateboard"⟩).calledProvider = true := by
  exact claim_C1 (TTLCache.empty : TTLCache OverpassPayload OverpassData) 0 1
    ⟨some "runtime error: query timed out", none, []⟩ ⟨none, none, []⟩
    ⟨"lisbon", 38, -9, 50000, "leisure=pitch;sport=skateboard"⟩
    (by decide) (Or.inl (by decide))

/-- Claim C5, counterexample: `"a b"` and `"a  b"` differ only in whitespace
(one internal space versus two), yet `lower().strip()` keeps internal
whitespace, so the canonical digest inputs — and hence the derived keys —
differ. -/
theorem claim_C5_counterexample :
    geocodeCacheKey "a b" ≠ geocodeCacheKey "a  b" := by
  decide

/-- Claim C5, amended: the derived keys of two city strings are identical
exactly when their canonical forms (lowercased, then trimmed of LEADING AND
TRAILING whitespace) are equal — in particular for strings differing only in
letter case and/or leading/trailing whitespace; distinct canonical forms yield
distinct keys (up to the collision resistance of the digest, which the model
treats as injective). -/
theorem claim_C5_amended (c1 c2 : String) :
    geocodeCacheKey c1 = geocodeCacheKey c2 ↔
      pyStrip (pyLower c1) = pyStrip (pyLower c2) := by
  unfold geocodeCacheKey
  constructor
  · intro h
    have hdata := congrArg String.data h
    rw [String.data_append, String.data_append] at hdata
    exact String.ext (List.append_cancel_left hdata)
  · intro h
    rw [h]

/-- Claim C5 witness: `"  Skate CITY "` and `"skate city"` canonicalize
identically, so their keys agree. -/
theorem claim_C5_amended_witness :
    geocodeCacheKey "  Skate CITY " = geocodeCacheKey "skate city" :=
  (claim_C5_amended "  Skate CITY " "skate city").mpr (by decide)

/-- Claim C8: `reverse_geocode` returns `(value, true)` on an unexpired cache
hit for the canonical (rounded-coordinate) key; on a miss with no provider
result it returns `(none, false)` and the store keeps no entry for the key
(negative results are never cached); on a miss with a provider result it caches
the address under the long (30-day) TTL and returns `(address, false)`. -/
theorem claim_C8 (cache : TTLCache (ℚ × ℚ) String) (now lat lon : ℚ)
    (provider : Option String) (v addr : String) :
    ((cache.get (reverseCacheKey lat lon) now).1 = some v →
       (reverseGeocode cache now provider lat lon).address = some v
       ∧ (reverseGeocode cache now provider lat lon).fromCache = true)
    ∧ ((cache.get (reverseCacheKey lat lon) now).1 = none →
       (reverseGeocode cache now none lat lon).address = none
       ∧ (reverseGeocode cache now none lat lon).fromCache = false
       ∧ (reverseGeocode cache now none lat lon).cache.lookup
           (reverseCacheKey lat lon) = none)
    ∧ ((cache.get (reverseCacheKey lat lon) now).1 = none →
       (reverseGeocode cache now (some addr) lat lon).address = some addr
       ∧ (reverseGeocode cache now (some addr) lat lon).fromCache = false
       ∧ (reverseGeocode cache now (some addr) lat lon).cache.lookup
           (reverseCacheKey lat lon)
         = some (addr, (now + GEOCODE_CACHE_TTL_SECONDS : ℚ))) := by
  refine ⟨?_, ?_, ?_⟩
  · intro hhit
    have hpair : cache.get (reverseCacheKey lat lon) now
        = (some v, (cache.get (reverseCacheKey lat lon) now).2) := by
      have : cache.get (reverseCacheKey lat lon) now
          = ((cache.get (reverseCacheKey lat lon) now).1,
             (cache.get (reverseCacheKey lat lon) now).2) := rfl
      rw [hhit] at this
      exact this
    unfold reverseGeocode
    rw [hpair]
    exact ⟨rfl, rfl⟩
  · intro hmiss
    have hpair : cache.get (reverseCacheKey lat lon) now
        = (none, (cache.get (reverseCacheKey lat lon) now).2) := by
      have : cache.get (reverseCacheKey lat lon) now
          = ((cache.get (reverseCacheKey lat lon) now).1,
             (cache.get (reverseCacheKey lat lon) now).2) := rfl
      rw [hmiss] at this
      exact this
    have hnone := TTLCache.get_none_lookup hmiss
    unfold reverseGeocode
    rw [hpair]
    exact ⟨rfl, rfl, hnone⟩
  · intro hmiss
    have hpair : cache.get (reverseCacheKey lat lon) now
        = (none, (cache.get (reverseCacheKey lat lon) now).2) := by
      have : cache.get (reverseCacheKey lat lon) now
          = ((cache.get (reverseCacheKey lat lon) now).1,
             (cache.get (reverseCacheKey lat lon) now).2) := rfl
      rw [hmiss] at this
      exact this
    unfold reverseGeocode
    rw [hpair]
    exact ⟨rfl, rfl, TTLCache.lookup_set_self _ _ _ _ _⟩

/-- Claim C8 witness: concrete miss-then-store run at (38.7, -9.1) plus a
negative-result miss, from an empty store at time 0. -/
theorem claim_C8_witness :
    ((reverseGeocode TTLCache.empty 0 none (387/10) (-91/10)).address = none
     ∧ (reverseGeocode TTLCache.empty 0 none (387/10) (-91/10)).fromCache = false
     ∧ (reverseGeocode TTLCache.empty 0 none (387/10) (-91/10)).cache.lookup
         (reverseCacheKey (387/10) (-91/10)) = none)
    ∧ ((reverseGeocode TTLCache.empty 0 (some "Lisbon, Portugal") (387/10) (-91/10)).address
         = some "Lisbon, Portugal"
       ∧ (reverseGeocode TTLCache.empty 0 (some "Lisbon, Portugal") (387/10) (-91/10)).fromCache
         = false
       ∧ (reverseGeocode TTLCache.empty 0 (some "Lisbon, Portugal") (387/10) (-91/10)).cache.lookup
           (reverseCacheKey (387/10) (-91/10))
         = some ("Lisbon, Portugal", ((0 : ℚ) + GEOCODE_CACHE_TTL_SECONDS : ℚ))) := by
  have hmiss : ((TTLCache.empty : TTLCache (ℚ × ℚ) String).get
      (reverseCacheKey (387/10) (-91/10)) 0).1 = none := rfl
  have h := claim_C8 TTLCache.empty 0 (387/10) (-91/10) none "x" "Lisbon, Portugal"
  exact ⟨h.2.1 hmiss, h.2.2 hmiss⟩

/-- Claim C9: `geocode_city` fails with the blank-city `ValueError`
(`InvalidInput`) without contacting the provider when the trimmed city is
empty; on a cache miss it fails with the not-found `ValueError` (`NotFound`)
when the provider has no match; on success it stores the result under the
30-day (days-scale) TTL and returns it. -/
theorem claim_C9 (cache : TTLCache String GeocodeResult) (now : ℚ)
    (provider : Option GeocodeResult) (city : String) (loc : GeocodeResult) :
    (pyStrip city = "" →
       (geocodeCity cache now provider city).result = .error .invalidInput
       ∧ (geocodeCity cache now provider city).providerCalled = false
       ∧ (geocodeCity cache now provider city).cache = cache)
    ∧ (pyStrip city ≠ "" →
       (cache.get (geocodeCacheKey (pyStrip city)) now).1 = none →
       (geocodeCity cache now none city).result = .error (.notFound (pyStrip city))
       ∧ (geocodeCity cache now none city).providerCalled = true)
    ∧ (pyStrip city ≠ "" →
       (cache.get (geocodeCacheKey (pyStrip city)) now).1 = none →
       (geocodeCity cache now (some loc) city).result = .ok loc
       ∧ (geocodeCity cache now (some loc) city).providerCalled = true
       ∧ (geocodeCity cache now (some loc) city).cache.lookup
           (geocodeCacheKey (pyStrip city))
         = some (loc, (now + GEOCODE_CACHE_TTL_SECONDS : ℚ)))
    ∧ GEOCODE_CACHE_TTL_SECONDS = 60 * 60 * 24 * 30 := by
  refine ⟨?_, ?_, ?_, rfl⟩
  · intro hblank
    unfold geocodeCity
    simp only [hblank, if_pos rfl]
    exact ⟨rfl, rfl, rfl⟩
  · intro hne hmiss
    have hpair : cache.get (geocodeCacheKey (pyStrip city)) now
        = (none, (cache.get (geocodeCacheKey (pyStrip city)) now).2) := by
      have : cache.get (geocodeCacheKey (pyStrip city)) now
          = ((cache.get (geocodeCacheKey (pyStrip city)) now).1,
             (cache.get (geocodeCacheKey (pyStrip city)) now).2) := rfl
      rw [hmiss] at this
      exact this
    unfold geocodeCity
    simp only [if_neg hne]
    rw [hpair]
    exact ⟨rfl, rfl⟩
  · intro hne hmiss
    have hpair : cache.get (geocodeCacheKey (pyStrip city)) now
        = (none, (cache.get (geocodeCacheKey (pyStrip city)) now).2) := by
      have : cache.get (geocodeCacheKey (pyStrip city)) now
          = ((cache.get (geocodeCacheKey (pyStrip city)) now).1,
             (cache.get (geocodeCacheKey (pyStrip city)) now).2) := rfl
      rw [hmiss] at this
      exact this
    unfold geocodeCity
    simp only [if_neg hne]
    rw [hpair]
    exact ⟨rfl, rfl, TTLCache.lookup_set_self _ _ _ _ _⟩

/-- Claim C9 witness: concrete blank-city, not-found and success runs from an
empty store at time 0. -/
theorem claim_C9_witness :
    ((geocodeCity TTLCache.empty 0 (some ⟨38, -9, "x"⟩) "   ").result
       = .error .invalidInput
     ∧ (geocodeCity TTLCache.empty 0 (some ⟨38, -9, "x"⟩) "   ").providerCalled = false)
    ∧ ((geocodeCity TTLCache.empty 0 none "Lisbon").result
       = .error (.notFound (pyStrip "Lisbon")))
    ∧ ((geocodeCity TTLCache.empty 0 (some ⟨38, -9, "Lisbon, Portugal"⟩) "Lisbon").result
       = .ok ⟨38, -9, "Lisbon, Portugal"⟩) := by
  have hmiss : ((TTLCache.empty : TTLCache String GeocodeResult).get
      (geocodeCacheKey (pyStrip "Lisbon")) 0).1 = none := rfl
  refine ⟨?_, ?_, ?_⟩
  · have h := (claim_C9 TTLCache.empty 0 (some ⟨38, -9, "x"⟩) "   " ⟨38, -9, "x"⟩).1
      (by decide)
    exact ⟨h.1, h.2.1⟩
  · exact ((claim_C9 TTLCache.empty 0 none "Lisbon" ⟨38, -9, "x"⟩).2.1
      (by decide) hmiss).1
  · exact ((claim_C9 TTLCache.empty 0 (some ⟨38, -9, "Lisbon, Portugal"⟩) "Lisbon"
      ⟨38, -9, "Lisbon, Portugal"⟩).2.2.1 (by decide) hmiss).1

/-- Every element emitted by the merge loop has a key outside the running
`seen` set. -/
theorem mergeLoop_key_not_seen (seen : List (String × ℤ)) (l : List OSMElement) :
    ∀ x ∈ mergeLoop seen l, dedupKey x ∉ seen := by
  induction l generalizing seen with
  | nil =>
    intro x hx
    simp [mergeLoop] at hx
  | cons el rest ih =>
    intro x hx
    by_cases h : dedupKey el ∈ seen
    · rw [mergeLoop, if_pos h] at hx
      exact ih seen x hx
    · rw [mergeLoop, if_neg h] at hx
      rcases List.mem_cons.mp hx with rfl | hx2
      · exact h
      · have hrec := ih (dedupKey el :: seen) x hx2
        intro hcon
        exact hrec (List.mem_cons_of_mem _ hcon)

/-- The merge loop emits pairwise-distinct dedup keys. -/
theorem mergeLoop_pairwise (seen : List (String × ℤ)) (l : List OSMElement) :
    (mergeLoop seen l).Pairwise (fun a b => dedupKey a ≠ dedupKey b) := by
  induction l generalizing seen with
  | nil => simp [mergeLoop]
  | cons el rest ih =>
    by_cases h : dedupKey el ∈ seen
    · rw [mergeLoop, if_pos h]
      exact ih seen
    · rw [mergeLoop, if_neg h]
      refine List.Pairwise.cons ?_ (ih _)
      intro b hb hcon
      have hns := mergeLoop_key_not_seen (dedupKey el :: seen) rest b hb
      exact hns (hcon ▸ List.mem_cons_self _ _)

/-- A key already in `seen` never appears among the loop's output. -/
theorem mergeLoop_count_seen (k : String × ℤ) (seen : List (String × ℤ))
    (l : List OSMElement) (h : k ∈ seen) :
    (mergeLoop seen l).countP (fun x => decide (dedupKey x = k)) = 0 := by
  rw [List.countP_eq_zero]
  intro x hx
  have hns := mergeLoop_key_not_seen seen l x hx
  simp only [decide_eq_true_eq]
  intro hk
  exact hns (hk ▸ h)

/-- A key present in the input but not yet seen appears exactly once in the
loop's output. -/
theorem mergeLoop_count_one (k : String × ℤ) (seen : List (String × ℤ))
    (l : List OSMElement) (hns : k ∉ seen) (hmem : ∃ x ∈ l, dedupKey x = k) :
    (mergeLoop seen l).countP (fun x => decide (dedupKey x = k)) = 1 := by
  induction l generalizing seen with
  | nil =>
    rcases hmem with ⟨x, hx, _⟩
    cases hx
  | cons el rest ih =>
    by_cases h : dedupKey el ∈ seen
    · rw [mergeLoop, if_pos h]
      apply ih seen hns
      rcases hmem with ⟨x, hx, hk⟩
      rcases List.mem_cons.mp hx with rfl | hx2
      · exact absurd (hk ▸ h) hns
      · exact ⟨x, hx2, hk⟩
    · rw [mergeLoop, if_neg h]
      by_cases hk : dedupKey el = k
      · rw [List.countP_cons_of_pos _ _ (by simpa using hk)]
        have hzero := mergeLoop_count_seen k (dedupKey el :: seen) rest
          (hk ▸ List.mem_cons_self _ _)
        omega
      · rw [List.countP_cons_of_neg _ _ (by simpa using hk)]
        apply ih
        · intro hcon
          rcases List.mem_cons.mp hcon with heq | hseen
          · exact hk heq.symm
          · exact hns hseen
        · rcases hmem with ⟨x, hx, hxk⟩
          rcases List.mem_cons.mp hx with rfl | hx2
          · exact absurd hxk hk
          · exact ⟨x, hx2, hxk⟩

/-- `Pairwise` transports through `filterMap` when the map respects the
relations. -/
theorem pairwise_filterMap_of_pairwise {α β : Type} {R : α → α → Prop}
    {S : β → β → Prop} (f : α → Option β)
    (hf : ∀ a b x y, R a b → f a = some x → f b = some y → S x y) :
    ∀ {l : List α}, l.Pairwise R → (l.filterMap f).Pairwise S := by
  intro l hl
  induction hl with
  | nil => simp
  | cons ha ht ih =>
    rw [List.filterMap_cons]
    rcases hfa : f _ with _ | x
    · exact ih
    · refine List.Pairwise.cons ?_ ih
      intro y hy
      rcases List.mem_filterMap.mp hy with ⟨b, hb, hfb⟩
      exact hf _ _ _ _ (ha b hb) hfa hfb

/-- A feature built from an element carries that element's dedup key as
`(osm_type, osm_id)`. -/
theorem elementToFeature_key (el : OSMElement) (f : Feature)
    (h : elementToFeature el = some f) :
    (f.osm_type, f.osm_id) = dedupKey el := by
  unfold elementToFeature at h
  rcases h1 : (if el.type = "node" then el.lat else el.centerLat) with _ | a <;>
    rcases h2 : (if el.type = "node" then el.lon else el.centerLon) with _ | b <;>
      rw [h1, h2] at h <;> cases h
  rfl

/-- Claim C3: within one aggregate request the merged element list has
pairwise-distinct `(kind, id)` keys; an element occurring anywhere in the (two
or three) fetched result sets yields exactly one element with its key in the
merged output; and the normalized features (the records' provenance, which
carry `(osm_type, osm_id)`) also have pairwise-distinct keys, so no two final
records share a `(kind, external id)` pair. -/
theorem claim_C3 (results : List (List OSMElement)) (el : OSMElement)
    (hel : el ∈ results.flatten) :
    (mergeElements results).Pairwise (fun a b => dedupKey a ≠ dedupKey b)
    ∧ (mergeElements results).countP
        (fun x => decide (dedupKey x = dedupKey el)) = 1
    ∧ (osmElementsToGeoJSON (mergeElements results)).Pairwise
        (fun f g => (f.osm_type, f.osm_id) ≠ (g.osm_type, g.osm_id)) := by
  have hpw := mergeLoop_pairwise [] results.flatten
  refine ⟨hpw, ?_, ?_⟩
  · exact mergeLoop_count_one (dedupKey el) [] results.flatten
      (List.not_mem_nil _) ⟨el, hel, rfl⟩
  · apply pairwise_filterMap_of_pairwise elementToFeature _ hpw
    intro a b x y hR hfa hfb
    rw [elementToFeature_key a x hfa, elementToFeature_key b y hfb]
    exact hR

/-- Claim C3 witness: the same node appears in two of three result sets; the
merged output keeps exactly one copy. -/
theorem claim_C3_witness :
    (mergeElements [[⟨"node", 1, [("name", "A")], some 1, some 2, none, none⟩],
        [⟨"node", 1, [("name", "A")], some 1, some 2, none, none⟩], []]).Pairwise
      (fun a b => dedupKey a ≠ dedupKey b)
    ∧ (mergeElements [[⟨"node", 1, [("name", "A")], some 1, some 2, none, none⟩],
        [⟨"node", 1, [("name", "A")], some 1, some 2, none, none⟩], []]).countP
        (fun x => decide (dedupKey x
          = dedupKey ⟨"node", 1, [("name", "A")], some 1, some 2, none, none⟩)) = 1 := by
  have h := claim_C3 [[⟨"node", 1, [("name", "A")], some 1, some 2, none, none⟩],
      [⟨"node", 1, [("name", "A")], some 1, some 2, none, none⟩], []]
    ⟨"node", 1, [("name", "A")], some 1, some 2, none, none⟩ (by simp)
  exact ⟨h.1, h.2.1⟩

theorem pyOrStr_empty_getD (n : Option String) :
    (pyOrStr n (some "")).getD "" = n.getD "" := by
  rcases n with _ | s
  · rfl
  · by_cases h : s = ""
    · subst h
      rfl
    · simp [pyOrStr, pyTruthyStr, h]

theorem ne_empty_of_pyStrip_ne (s : String) (h : pyStrip s ≠ "") : s ≠ "" := by
  intro hnil
  subst hnil
  exact h rfl

theorem pyOrStr_truthy_left (a b : Option String) (s : String) (ha : a = some s)
    (hs : s ≠ "") : pyOrStr a b = some s := by
  subst ha
  simp [pyOrStr, pyTruthyStr, hs]

/-- A tag whose stripped value is non-blank is present with a non-empty
value. -/
theorem tag_nonblank (tags : List (String × String)) (t : String)
    (h : pyStrip ((tagsGet tags t).getD "") ≠ "") :
    ∃ s, tagsGet tags t = some s ∧ pyStrip s ≠ "" ∧ s ≠ "" := by
  rcases hg : tagsGet tags t with _ | s
  · rw [hg] at h
    exact absurd rfl h
  · rw [hg] at h
    exact ⟨s, rfl, h, ne_empty_of_pyStrip_ne s h⟩

/-- Field characterization of a record built by `featureToRecord`. -/
theorem featureToRecord_fields (f : Feature) (r : ParkRecord)
    (h : featureToRecord f = some r) :
    r.name = pyStrip ((pyOrStr f.name (some "")).getD "") ∧ r.name ≠ ""
    ∧ r.lat = pyRound 6 f.lat ∧ r.lon = pyRound 6 f.lon
    ∧ r.address = buildDisplayAddress f.tags := by
  simp only [featureToRecord] at h
  split at h
  next => cases h
  next hne =>
    cases h
    exact ⟨rfl, hne, rfl, rfl, rfl⟩

/-- The `name` a feature inherits from its element. -/
theorem elementToFeature_name (el : OSMElement) (f : Feature)
    (h : elementToFeature el = some f) : f.name = tagsGet el.tags "name" := by
  unfold elementToFeature at h
  rcases h1 : (if el.type = "node" then el.lat else el.centerLat) with _ | a <;>
    rcases h2 : (if el.type = "node" then el.lon else el.centerLon) with _ | b <;>
      rw [h1, h2] at h <;> cases h
  rfl

/-- Claim C6: a `node` element with a direct coordinate yields the feature
with that coordinate; a non-`node` (area) element yields its `center`
coordinate when both centroid fields are present and is silently dropped when
a centroid field is absent; every record in the final output carries
coordinates rounded to 6 decimal places (a fixed point of `pyRound 6`). -/
theorem claim_C6 (el : OSMElement) (a b : ℚ) (results : List (List OSMElement))
    (r : ParkRecord) :
    (el.type = "node" → el.lat = some a → el.lon = some b →
      elementToFeature el
        = some ⟨tagsGet el.tags "name", el.type, el.id, el.tags, b, a⟩)
    ∧ (el.type ≠ "node" → el.centerLat = some a → el.centerLon = some b →
      elementToFeature el
        = some ⟨tagsGet el.tags "name", el.type, el.id, el.tags, b, a⟩)
    ∧ (el.type ≠ "node" → el.centerLat = none ∨ el.centerLon = none →
      elementToFeature el = none)
    ∧ (r ∈ aggregateRecords results →
      pyRound 6 r.lat = r.lat ∧ pyRound 6 r.lon = r.lon) := by
  refine ⟨?_, ?_, ?_, ?_⟩
  · intro ht hlat hlon
    unfold elementToFeature
    rw [if_pos ht, if_pos ht, hlat, hlon]
  · intro ht hlat hlon
    unfold elementToFeature
    rw [if_neg ht, if_neg ht, hlat, hlon]
  · intro ht hc
    unfold elementToFeature
    rw [if_neg ht, if_neg ht]
    rcases hc with h | h
    · rw [h]
    · rcases hl : el.centerLat with _ | a2
      · rfl
      · rw [h]
  · intro hr
    rcases List.mem_filterMap.mp hr with ⟨f, _, hf⟩
    obtain ⟨_, _, hlat, hlon, _⟩ := featureToRecord_fields f r hf
    rw [hlat, hlon]
    exact ⟨pyRound_idem 6 f.lat, pyRound_idem 6 f.lon⟩

/-- Claim C6 witness: a node with a direct coordinate, an area with a
centroid, an area lacking a centroid field, and a concrete record of the
aggregation output whose coordinates are 6-place-rounded. -/
theorem claim_C6_witness :
    elementToFeature ⟨"node", 1, [("name", "A")], some 1, some 2, none, none⟩
      = some ⟨tagsGet [("name", "A")] "name", "node", 1, [("name", "A")], 2, 1⟩
    ∧ elementToFeature ⟨"way", 2, [], none, none, some 3, some 4⟩
      = some ⟨tagsGet ([] : List (String × String)) "name", "way", 2, [], 4, 3⟩
    ∧ elementToFeature ⟨"way", 3, [], none, none, none, some 4⟩ = none
    ∧ (pyRound 6 (pyRound 6 1) = pyRound 6 1 ∧ pyRound 6 (pyRound 6 2) = pyRound 6 2) := by
  refine ⟨?_, ?_, ?_, ?_⟩
  · exact (claim_C6 ⟨"node", 1, [("name", "A")], some 1, some 2, none, none⟩ 1 2
      [] ⟨"", 0, 0, none⟩).1 rfl rfl rfl
  · exact (claim_C6 ⟨"way", 2, [], none, none, some 3, some 4⟩ 3 4
      [] ⟨"", 0, 0, none⟩).2.1 (by decide) rfl rfl
  · exact (claim_C6 ⟨"way", 3, [], none, none, none, some 4⟩ 0 0
      [] ⟨"", 0, 0, none⟩).2.2.1 (by decide) (Or.inl rfl)
  · have h := (claim_C6 ⟨"node", 1, [("name", "A")], some 1, some 2, none, none⟩ 0 0
      [[⟨"node", 1, [("name", "A")], some 1, some 2, none, none⟩]]
      ⟨"A", pyRound 6 1, pyRound 6 2, none⟩).2.2.2
        (List.mem_singleton.mpr rfl)
    exact h

/-- Claim C7: an element whose `name` tag is missing, empty or whitespace-only
contributes no record (even with valid coordinates), and every record of the
final output has a non-empty name. -/
theorem claim_C7 (el : OSMElement) (results : List (List OSMElement))
    (r : ParkRecord) :
    (pyStrip ((tagsGet el.tags "name").getD "") = "" →
      buildSkateparks (osmElementsToGeoJSON [el]) = [])
    ∧ (r ∈ aggregateRecords results → r.name ≠ "") := by
  constructor
  · intro hblank
    rcases hf : elementToFeature el with _ | f
    · simp [buildSkateparks, osmElementsToGeoJSON, hf]
    · have hname := elementToFeature_name el f hf
      have hrec : featureToRecord f = none := by
        simp only [featureToRecord]
        rw [if_pos]
        rw [pyOrStr_empty_getD, hname]
        exact hblank
      simp [buildSkateparks, osmElementsToGeoJSON, hf, hrec]
  · intro hr
    rcases List.mem_filterMap.mp hr with ⟨f, _, hf⟩
    exact (featureToRecord_fields f r hf).2.1

/-- Claim C7 witness: a whitespace-only-named node with valid coordinates is
dropped; the record built from a properly named node has a non-empty name. -/
theorem claim_C7_witness :
    buildSkateparks (osmElementsToGeoJSON
      [⟨"node", 1, [("name", "   ")], some 1, some 2, none, none⟩]) = []
    ∧ ParkRecord.name ⟨"A", pyRound 6 1, pyRound 6 2, none⟩ ≠ "" := by
  constructor
  · exact (claim_C7 ⟨"node", 1, [("name", "   ")], some 1, some 2, none, none⟩
      [] ⟨"", 0, 0, none⟩).1 (by decide)
  · exact (claim_C7 ⟨"node", 1, [("name", "A")], some 1, some 2, none, none⟩
      [[⟨"node", 1, [("name", "A")], some 1, some 2, none, none⟩]]
      ⟨"A", pyRound 6 1, pyRound 6 2, none⟩).2 (List.mem_singleton.mpr rfl)

/-- Claim C10: a tag mapping with a truthy non-blank `addr:full`/`address`, or
any non-blank component among `addr:street`, `addr:housenumber`, `addr:city`,
`addr:postcode`, `addr:country`, yields a tag-derived display address; a
record built from a feature carries exactly that tag-derived address; the
enrichment loop skips (performs no reverse-geocode call at all for) a record
whose address is present, and issues exactly one lookup for a record whose
address is absent. -/
theorem claim_C10 (tags : List (String × String)) (f : Feature) (r : ParkRecord)
    (provider : ℚ → ℚ → Option String) (st : EnrichState) (item : ParkRecord) :
    ((∃ t ∈ (["addr:street", "addr:housenumber", "addr:city", "addr:postcode",
        "addr:country"] : List String),
        pyStrip ((tagsGet tags t).getD "") ≠ "") →
      (buildDisplayAddress tags).isSome = true)
    ∧ (pyTruthyStr (addrFull tags) = true →
       pyStrip ((addrFull tags).getD "") ≠ "" →
       buildDisplayAddress tags = some (pyStrip ((addrFull tags).getD "")))
    ∧ (featureToRecord f = some r → r.address = buildDisplayAddress f.tags)
    ∧ (item.address.isSome = true → enrichStep provider st item = (item, st))
    ∧ (item.address = none →
        (enrichStep provider st item).2.lookups = st.lookups + 1) := by
  refine ⟨?_, ?_, ?_, ?_, ?_⟩
  · intro hex
    have htags : tags ≠ [] := by
      intro hnil
      rcases hex with ⟨t, _, hne⟩
      rw [hnil] at hne
      exact hne rfl
    unfold buildDisplayAddress
    rw [if_neg htags]
    by_cases hfull : pyTruthyStr (addrFull tags) && (pyStrip ((addrFull tags).getD "") != "")
    · rw [if_pos hfull]
      rfl
    · rw [if_neg hfull]
      have hparts : addrParts tags ≠ [] := by
        rcases hex with ⟨t, ht, hne⟩
        simp only [List.mem_cons, List.mem_singleton] at ht
        rcases ht with rfl | rfl | rfl | rfl | rfl | hfalse
        · -- addr:street
          have hst : addrStreet tags ≠ "" := hne
          simp [addrParts, addrFirstPart, hst]
        · -- addr:housenumber
          have hhn : addrHousenumber tags ≠ "" := hne
          by_cases hst : addrStreet tags ≠ ""
          · simp [addrParts, addrFirstPart, hst]
          · simp [addrParts, addrFirstPart, hst, hhn]
        · -- addr:city
          obtain ⟨s, hgc, hps, hsne⟩ := tag_nonblank tags "addr:city" hne
          have hcity : addrCity tags = pyStrip s := by
            unfold addrCity
            rw [pyOrStr_truthy_left _ _ s hgc hsne,
              pyOrStr_truthy_left _ _ s rfl hsne,
              pyOrStr_truthy_left _ _ s rfl hsne]
            rfl
          have hc : addrCity tags ≠ "" := by
            rw [hcity]
            exact hps
          simp [addrParts, hc]
        · -- addr:postcode
          have hp : addrPostcode tags ≠ "" := hne
          simp [addrParts, hp]
        · -- addr:country
          have hc : addrCountry tags ≠ "" := hne
          simp [addrParts, hc]
        · cases hfalse
      rw [if_neg hparts]
      rfl
  · intro hful hstrip
    have htags : tags ≠ [] := by
      intro hnil
      rw [hnil] at hful
      cases hful
    unfold buildDisplayAddress
    rw [if_neg htags, if_pos]
    rw [hful]
    simpa using hstrip
  · intro h
    exact (featureToRecord_fields f r h).2.2.2.2
  · intro hsome
    simp [enrichStep, hsome]
  · intro hnone
    have hsome : item.address.isSome = false := by
      rw [hnone]
      rfl
    by_cases hc : (reverseGeocode st.cache st.now (provider item.lat item.lon)
        item.lat item.lon).fromCache
    · simp [enrichStep, hsome, hc]
    · simp [enrichStep, hsome, hc]

/-- Claim C10 witness: a record whose tags carry `addr:street` keeps its
tag-derived address and passes through the enrichment step untouched; an
address-less record triggers exactly one lookup. -/
theorem claim_C10_witness :
    (buildDisplayAddress [("addr:street", "Main St")]).isSome = true
    ∧ buildDisplayAddress [("addr:full", " 1 Main St ")]
        = some (pyStrip ((addrFull [("addr:full", " 1 Main St ")]).getD ""))
    ∧ ParkRecord.address ⟨"A", pyRound 6 1, pyRound 6 2,
        buildDisplayAddress [("name", "A")]⟩
      = buildDisplayAddress (Feature.tags ⟨some "A", "node", 1, [("name", "A")], 2, 1⟩)
    ∧ enrichStep (fun _ _ => some "X") ⟨TTLCache.empty, 0, 0, 0, 0⟩
        ⟨"A", 1, 2, some "addr"⟩
      = (⟨"A", 1, 2, some "addr"⟩, ⟨TTLCache.empty, 0, 0, 0, 0⟩)
    ∧ (enrichStep (fun _ _ => some "X") ⟨TTLCache.empty, 0, 0, 0, 0⟩
        ⟨"A", 1, 2, none⟩).2.lookups = 0 + 1 := by
  refine ⟨?_, ?_, ?_, ?_, ?_⟩
  · exact (claim_C10 [("addr:street", "Main St")] ⟨none, "", 0, [], 0, 0⟩
      ⟨"", 0, 0, none⟩ (fun _ _ => none) ⟨TTLCache.empty, 0, 0, 0, 0⟩
      ⟨"", 0, 0, none⟩).1 ⟨"addr:street", by decide, by decide⟩
  · exact (claim_C10 [("addr:full", " 1 Main St ")] ⟨none, "", 0, [], 0, 0⟩
      ⟨"", 0, 0, none⟩ (fun _ _ => none) ⟨TTLCache.empty, 0, 0, 0, 0⟩
      ⟨"", 0, 0, none⟩).2.1 (by decide) (by decide)
  · exact (claim_C10 [] ⟨some "A", "node", 1, [("name", "A")], 2, 1⟩
      ⟨"A", pyRound 6 1, pyRound 6 2, buildDisplayAddress [("name", "A")]⟩
      (fun _ _ => none) ⟨TTLCache.empty, 0, 0, 0, 0⟩ ⟨"", 0, 0, none⟩).2.2.1 rfl
  · exact (claim_C10 [] ⟨none, "", 0, [], 0, 0⟩ ⟨"", 0, 0, none⟩
      (fun _ _ => some "X") ⟨TTLCache.empty, 0, 0, 0, 0⟩
      ⟨"A", 1, 2, some "addr"⟩).2.2.2.1 rfl
  · exact (claim_C10 [] ⟨none, "", 0, [], 0, 0⟩ ⟨"", 0, 0, none⟩
      (fun _ _ => some "X") ⟨TTLCache.empty, 0, 0, 0, 0⟩
      ⟨"A", 1, 2, none⟩).2.2.2.2 rfl

/-- One enrichment step adds `j ∈ {0, 1}` to the miss count and exactly
`1.1 * j` to the accumulated sleep time: the `asyncio.sleep(1.1)` pause
happens precisely after a lookup not served from the cache. -/
theorem enrichStep_delta (provider : ℚ → ℚ → Option String) (st : EnrichState)
    (item : ParkRecord) :
    ∃ j : ℕ, j ≤ 1
      ∧ (enrichStep provider st item).2.missCount = st.missCount + j
      ∧ (enrichStep provider st item).2.sleepTotal = st.sleepTotal + (11/10) * j := by
  by_cases h : item.address.isSome = true
  · exact ⟨0, by norm_num, by simp [enrichStep, h], by simp [enrichStep, h]⟩
  · have h0 : item.address.isSome = false := by
      simpa using h
    by_cases hc : (reverseGeocode st.cache st.now (provider item.lat item.lon)
        item.lat item.lon).fromCache
    · exact ⟨0, by norm_num, by simp [enrichStep, h0, hc], by simp [enrichStep, h0, hc]⟩
    · refine ⟨1, le_refl 1, ?_, ?_⟩
      · simp [enrichStep, h0, hc]
      · simp [enrichStep, h0, hc]

/-- Over a whole enrichment run, the accumulated sleep time is exactly `1.1`
per cache-miss lookup, and there are at most as many misses as records. -/
theorem enrichRecords_delta (provider : ℚ → ℚ → Option String)
    (rs : List ParkRecord) :
    ∀ st : EnrichState, ∃ k : ℕ, k ≤ rs.length
      ∧ (enrichRecords provider st rs).2.missCount = st.missCount + k
      ∧ (enrichRecords provider st rs).2.sleepTotal = st.sleepTotal + (11/10) * k := by
  induction rs with
  | nil =>
    intro st
    exact ⟨0, by simp, by simp [enrichRecords], by simp [enrichRecords]⟩
  | cons r rest ih =>
    intro st
    obtain ⟨j, hj1, hjm, hjs⟩ := enrichStep_delta provider st r
    obtain ⟨k, hk1, hkm, hks⟩ := ih (enrichStep provider st r).2
    have hsnd : (enrichRecords provider st (r :: rest)).2
        = (enrichRecords provider (enrichStep provider st r).2 rest).2 := rfl
    refine ⟨j + k, ?_, ?_, ?_⟩
    · simp only [List.length_cons]
      omega
    · rw [hsnd, hkm, hjm]
      omega
    · rw [hsnd, hks, hjs]
      push_cast
      ring

/-- Claim C4: the enrichment loop runs strictly sequentially in record order
(it is a left-to-right fold, see `enrichRecords`); its accumulated pause time
is exactly `1.1` per lookup not served from the cache and `0` per cache hit,
so when all `N` processed records were cache misses, the total enrichment time
is at least `1.1 * (N - 1)` (indeed `1.1 * N`). -/
theorem claim_C4 (provider : ℚ → ℚ → Option String) (st : EnrichState)
    (records : List ParkRecord) (h0s : st.sleepTotal = 0) (h0m : st.missCount = 0) :
    (enrichRecords provider st records).2.sleepTotal
      = (11/10) * (((enrichRecords provider st records).2.missCount : ℕ) : ℚ)
    ∧ ((enrichRecords provider st records).2.missCount = records.length →
        (enrichRecords provider st records).2.sleepTotal
          ≥ (11/10) * ((records.length : ℚ) - 1)) := by
  obtain ⟨k, hk1, hkm, hks⟩ := enrichRecords_delta provider records st
  constructor
  · rw [hks, hkm, h0s, h0m]
    push_cast
    ring
  · intro hN
    rw [hkm, h0m] at hN
    have hkN : k = records.length := by omega
    rw [hks, h0s, hkN]
    have hlen : (0 : ℚ) ≤ (records.length : ℚ) := by positivity
    linarith

/-- Claim C4 witness: one address-less record, empty cache (hence a miss):
the sleep total is `1.1 * 1 ≥ 1.1 * (1 - 1)`. -/
theorem claim_C4_witness :
    (enrichRecords (fun _ _ => some "X") ⟨TTLCache.empty, 0, 0, 0, 0⟩
        [⟨"A", 1, 2, none⟩]).2.sleepTotal
      = (11/10) * (((enrichRecords (fun _ _ => some "X") ⟨TTLCache.empty, 0, 0, 0, 0⟩
          [⟨"A", 1, 2, none⟩]).2.missCount : ℕ) : ℚ)
    ∧ (enrichRecords (fun _ _ => some "X") ⟨TTLCache.empty, 0, 0, 0, 0⟩
        [⟨"A", 1, 2, none⟩]).2.sleepTotal
      ≥ (11/10) * ((([(⟨"A", 1, 2, none⟩ : ParkRecord)] : List ParkRecord).length : ℚ) - 1) := by
  have h := claim_C4 (fun _ _ => some "X") ⟨TTLCache.empty, 0, 0, 0, 0⟩
    [⟨"A", 1, 2, none⟩] rfl rfl
  exact ⟨h.1, h.2 rfl⟩
